import Mathlib

/-!
Verification of the job orchestration core of the youtube-audio-api-scalable
repository against its natural-language specification.

The Go sources are shallowly embedded: straight-line control flow becomes
Lean functions, the mutable stores become explicit state passing, machine
integers become Int, and fallible operations return Except or Option.
The outcome of each external effect (queue publish, database lookup,
subprocess invocation) is a Boolean or value parameter of the embedding,
one parameter per effect, so that every control path of the source is a
concrete input of the Lean function.
-/

namespace YtApi

/-- Job status enumeration from shared/job.go (JobStatusPending,
JobStatusProcessing, JobStatusCompleted, JobStatusFailed). -/
inductive JobStatus where
  | pending
  | processing
  | completed
  | failed
  deriving DecidableEq, BEq, Repr

/-- Metadata record from shared/job.go.  The Go Duration field is a
float64 which this development only ever stores and copies, never
computes with, so it is carried as an opaque integer. -/
structure Metadata where
  title : String
  uploader : String
  duration : Int
  audioURL : String
  ext : String
  abr : Int
  deriving DecidableEq, Repr

/-- Value-level Job record from shared/job.go: pointer-valued fields
(Metadata, StartedAt, CompletedAt) are flattened to Option values.
This value view is used for the store-contract claims; the
aliasing-sensitive claim C8 uses the pointer-level model further down. -/
structure Job where
  id : String
  originalURL : String
  status : JobStatus
  metadata : Option Metadata
  downloadEndpoint : String
  error : String
  createdAt : Int
  startedAt : Option Int
  completedAt : Option Int
  filePath : String
  deriving DecidableEq, Repr

/-- Transport envelope from shared/queue.go (JobMessage). -/
structure JobMessage where
  jobID : String
  originalURL : String
  deriving DecidableEq, Repr

/-! ## Claim C1: per-job status write sequences -/

/-- Statuses written to the JobStore for a freshly submitted job by
handleExtract (api-gateway/main.go lines 106-136): CreateJob stores the
job with status pending; when Publish fails the handler sets the status
to failed and writes it back with UpdateJob.  That update targets the
record just created in the gateway's own store, so it is modelled as
succeeding. -/
def handleExtractWrites (createOk publishOk : Bool) : List JobStatus :=
  if createOk then
    JobStatus.pending :: (if publishOk then [] else [JobStatus.failed])
  else []

/-- Statuses written by the worker's processJob (worker/main.go lines
83-147): when GetJob finds the job it is first updated to processing
(with StartedAt), then to completed when both yt-dlp and ffmpeg succeed
and to failed otherwise (handleJobFailure).  When GetJob fails the
message is dropped and nothing is written. -/
def processJobWrites (getOk ytOk ffOk : Bool) : List JobStatus :=
  if getOk then
    JobStatus.processing ::
      [if ytOk then (if ffOk then JobStatus.completed else JobStatus.failed)
       else JobStatus.failed]
  else []

/-- Complete per-job sequence of status values ever written to the
JobStore: the submission handler's writes followed, when the message
reached the queue, by the dispatcher's writes.  The dispatcher only
receives a message for the job when Publish succeeded. -/
def jobStatusWrites (createOk publishOk getOk ytOk ffOk : Bool) : List JobStatus :=
  handleExtractWrites createOk publishOk ++
    (if createOk && publishOk then processJobWrites getOk ytOk ffOk else [])

/-- Predicate of claim C1 as stated by the spec: the write sequence is a
prefix of pending, processing, completed or of pending, processing,
failed. -/
def statusChainOk (w : List JobStatus) : Bool :=
  w.isPrefixOf [JobStatus.pending, JobStatus.processing, JobStatus.completed] ||
  w.isPrefixOf [JobStatus.pending, JobStatus.processing, JobStatus.failed]

/-- C1 counterexample: when Publish fails at submission (createOk, yet
publishOk = false, the path of api-gateway/main.go lines 128-135) the
job's write sequence is pending, failed: it reaches the terminal status
failed without ever having status processing, refuting the claim. -/
theorem c1_cx : statusChainOk (jobStatusWrites true false true true true) = false := by
  decide

/-- C1, amended: every per-job write sequence is a prefix of
pending, processing, {completed | failed}, or is exactly
[pending, failed], the sequence written when publishing the job message
fails at submission; no sequence regresses. -/
theorem c1_amended (createOk publishOk getOk ytOk ffOk : Bool) :
    statusChainOk (jobStatusWrites createOk publishOk getOk ytOk ffOk) = true ∨
    jobStatusWrites createOk publishOk getOk ytOk ffOk =
      [JobStatus.pending, JobStatus.failed] := by
  cases createOk <;> cases publishOk <;> cases getOk <;> cases ytOk <;>
    cases ffOk <;> decide

/-! ## Claim C2: Allow before Create on the submission path -/

/-- Store, queue and limiter calls the gateway submission path can emit,
in program order.  The rateAllow constructor stands for a call to
RateLimiter.Allow; handleExtract as written never performs one, the
constructor exists so the claim can be stated. -/
inductive GwEvent where
  | rateAllow
  | createJob
  | publishMsg
  | updateJob
  deriving DecidableEq, BEq, Repr

/-- Event trace of handleExtract (api-gateway/main.go lines 86-148) as a
function of its branch outcomes: non-POST, bad JSON and missing URL
return before any store call; otherwise CreateJob is called, then on
success Publish, and on publish failure UpdateJob (writing failed). -/
def handleExtractEvents (postMethod validJSON urlPresent createOk publishOk : Bool) :
    List GwEvent :=
  if postMethod then
    if validJSON then
      if urlPresent then
        GwEvent.createJob ::
          (if createOk then
            GwEvent.publishMsg :: (if publishOk then [] else [GwEvent.updateJob])
          else [])
      else []
    else []
  else []

/-- Predicate of claim C2: scanning the trace left to right, every
createJob event must be preceded by a rateAllow event.  The verdict of
the Allow call is immaterial here because the trace never contains a
rateAllow event at all. -/
def okFrom (allowed : Bool) : List GwEvent → Bool
  | [] => true
  | GwEvent.rateAllow :: rest => okFrom true rest
  | GwEvent.createJob :: rest => allowed && okFrom allowed rest
  | _ :: rest => okFrom allowed rest

/-- C2 counterexample: the ordinary successful submission (all branch
outcomes true) calls CreateJob with no preceding RateLimiter.Allow
call, refuting the claim. -/
theorem c2_cx : okFrom false (handleExtractEvents true true true true true) = false := by
  decide

/-- C2, amended: the gateway submission handler never consults the rate
limiter at all: no execution of handleExtract contains a
RateLimiter.Allow call, so job records are created without any
rate-limit check. -/
theorem c2_amended (a b c d e : Bool) :
    (handleExtractEvents a b c d e).contains GwEvent.rateAllow = false := by
  cases a <;> cases b <;> cases c <;> cases d <;> cases e <;> decide

/-! ## Claim C3: worker pool concurrency bound -/

/-- Instantaneous state of the worker's dispatch machinery
(worker/main.go): tokens is the number of struct values currently in
the workerLimiter channel (capacity cfg.MaxWorkers, line 44);
pendingSpawn counts tokens acquired by the dispatch loop whose goroutine
has not yet entered processJob (between lines 66 and 76); running counts
goroutines currently executing processJob; retiring counts goroutines
whose processJob returned but whose deferred release (line 73) has not
yet run. -/
structure PoolState where
  tokens : Nat
  pendingSpawn : Nat
  running : Nat
  retiring : Nat
  deriving DecidableEq, Repr

/-- Interleaving semantics of startQueueConsumer (worker/main.go lines
57-80): acquire is the blocking send on workerLimiter, enabled only
while the channel holds fewer than maxW tokens; spawn starts the
goroutine's processJob call; finishRun is processJob returning; release
is the deferred receive from workerLimiter. -/
inductive PoolStep (maxW : Nat) : PoolState → PoolState → Prop where
  | acquire (s : PoolState) (h : s.tokens < maxW) :
      PoolStep maxW s ⟨s.tokens + 1, s.pendingSpawn + 1, s.running, s.retiring⟩
  | spawn (s : PoolState) (h : 0 < s.pendingSpawn) :
      PoolStep maxW s ⟨s.tokens, s.pendingSpawn - 1, s.running + 1, s.retiring⟩
  | finishRun (s : PoolState) (h : 0 < s.running) :
      PoolStep maxW s ⟨s.tokens, s.pendingSpawn, s.running - 1, s.retiring + 1⟩
  | release (s : PoolState) (h : 0 < s.retiring) :
      PoolStep maxW s ⟨s.tokens - 1, s.pendingSpawn, s.running, s.retiring - 1⟩

/-- States the worker process can reach from startup, where the
workerLimiter channel is empty and no job goroutine exists. -/
def PoolReachable (maxW : Nat) (s : PoolState) : Prop :=
  Relation.ReflTransGen (PoolStep maxW) ⟨0, 0, 0, 0⟩ s

/-- Inductive invariant of the dispatch machinery: every pending spawn,
running execution and unreleased finisher holds a distinct channel
token, and the channel never holds more than its capacity. -/
def PoolInv (maxW : Nat) (s : PoolState) : Prop :=
  s.pendingSpawn + s.running + s.retiring ≤ s.tokens ∧ s.tokens ≤ maxW

lemma poolStep_inv {maxW : Nat} {s t : PoolState} (hst : PoolStep maxW s t)
    (hs : PoolInv maxW s) : PoolInv maxW t := by
  obtain ⟨h1, h2⟩ := hs
  cases hst with
  | acquire h => exact ⟨by dsimp; omega, by dsimp; omega⟩
  | spawn h => exact ⟨by dsimp; omega, by dsimp; omega⟩
  | finishRun h => exact ⟨by dsimp; omega, by dsimp; omega⟩
  | release h => exact ⟨by dsimp; omega, by dsimp; omega⟩

lemma poolReachable_inv {maxW : Nat} {s : PoolState}
    (h : PoolReachable maxW s) : PoolInv maxW s := by
  induction h with
  | refl => exact ⟨by dsimp; omega, by dsimp; omega⟩
  | tail _ hstep ih => exact poolStep_inv hstep ih

/-- C3: in every state the worker process can reach, the number of
goroutines concurrently executing processJob is at most the configured
MaxWorkers, because the dispatch loop acquires a workerLimiter token
before spawning each execution. -/
theorem c3_pool_bound (maxW : Nat) (s : PoolState)
    (h : PoolReachable maxW s) : s.running ≤ maxW := by
  obtain ⟨h1, h2⟩ := poolReachable_inv h
  omega

/-- C3 witness: the state with one running execution and one pending
spawn, reached by two acquires and one spawn under MaxWorkers = 3, is
reachable and satisfies the bound. -/
theorem c3_pool_bound_witness :
    PoolReachable 3 ⟨2, 1, 1, 0⟩ ∧ PoolState.running ⟨2, 1, 1, 0⟩ ≤ 3 := by
  have d1 : PoolStep 3 ⟨0, 0, 0, 0⟩ ⟨1, 1, 0, 0⟩ :=
    PoolStep.acquire ⟨0, 0, 0, 0⟩ (by decide)
  have d2 : PoolStep 3 ⟨1, 1, 0, 0⟩ ⟨2, 2, 0, 0⟩ :=
    PoolStep.acquire ⟨1, 1, 0, 0⟩ (by decide)
  have d3 : PoolStep 3 ⟨2, 2, 0, 0⟩ ⟨2, 1, 1, 0⟩ :=
    PoolStep.spawn ⟨2, 2, 0, 0⟩ (by decide)
  have hr : PoolReachable 3 ⟨2, 1, 1, 0⟩ :=
    Relation.ReflTransGen.tail
      (Relation.ReflTransGen.tail (Relation.ReflTransGen.tail
        Relation.ReflTransGen.refl d1) d2) d3
  exact ⟨hr, c3_pool_bound 3 ⟨2, 1, 1, 0⟩ hr⟩

/-! ## Claim C4: Delete on both JobStore backends -/

/-- Decides whether an Except value is a success. -/
def exceptOk {ε α : Type} : Except ε α → Bool
  | Except.ok _ => true
  | Except.error _ => false

/-- InMemoryDB.DeleteJob (shared/db.go): the jobs map is embedded as a
function from id to optional record; the method errors when the id is
absent and otherwise removes the entry. -/
def inMemDeleteJob (jobs : String → Option Job) (jobID : String) :
    Except String (String → Option Job) :=
  match jobs jobID with
  | none => Except.error ("job with ID " ++ jobID ++ " not found for deletion")
  | some _ => Except.ok (fun k => if k = jobID then none else jobs k)

/-- Key layout of RedisDB (shared/db_redis.go): job records live under
job:<id>. -/
def jobKey (id : String) : String := "job:" ++ id

/-- State of the durable backend: the string keyspace holding the JSON
job records, and the jobs sorted set as a list of (member, score)
pairs. -/
structure RedisState where
  records : String → Option Job
  index : List (String × Int)

/-- RedisDB.DeleteJob (shared/db_redis.go lines 76-84): a transactional
pipeline of DEL job:<id> and ZREM jobs <id>, executed with no
existence check; both commands are no-ops on absent keys or members and
the pipeline succeeds.  Network failure of the pipeline is not
modelled. -/
def redisDeleteJob (st : RedisState) (jobID : String) : Except String RedisState :=
  Except.ok
    { records := fun k => if k = jobKey jobID then none else st.records k,
      index := st.index.filter (fun p => p.1 != jobID) }

/-- Durable backend with no records and an empty index. -/
def redisEmpty : RedisState := ⟨fun _ => none, []⟩

/-- Check of claim C4 at the durable backend with an absent id: the
claim requires DeleteJob of an id with no record to fail. -/
def c4RedisAbsentCheck : Bool := !(exceptOk (redisDeleteJob redisEmpty "missing"))

/-- C4 counterexample: on the durable backend, deleting the absent id
"missing" from the empty store succeeds instead of failing with
NotFound, because RedisDB.DeleteJob performs no existence check. -/
theorem c4_cx : c4RedisAbsentCheck = false := by decide

/-- C4, amended: the volatile backend fails with NotFound when the id is
absent and otherwise removes exactly that record; the durable backend
always succeeds, removing the record and every index entry of the id,
even when no record with that id is present. -/
theorem c4_amended (jobs : String → Option Job) (st : RedisState) (id : String) :
    (jobs id = none → exceptOk (inMemDeleteJob jobs id) = false) ∧
    (∀ j, jobs id = some j → ∃ jobs',
      inMemDeleteJob jobs id = Except.ok jobs' ∧ jobs' id = none ∧
      ∀ k, k ≠ id → jobs' k = jobs k) ∧
    (∃ st', redisDeleteJob st id = Except.ok st' ∧
      st'.records (jobKey id) = none ∧
      (∀ k, k ≠ jobKey id → st'.records k = st.records k) ∧
      ∀ m s, (m, s) ∈ st'.index → m ≠ id) := by
  refine ⟨?_, ?_, ?_⟩
  · intro habs
    simp [inMemDeleteJob, habs, exceptOk]
  · intro j hpres
    refine ⟨fun k => if k = id then none else jobs k, ?_, ?_, ?_⟩
    · simp [inMemDeleteJob, hpres]
    · simp
    · intro k hk
      simp [hk]
  · refine ⟨_, rfl, ?_, ?_, ?_⟩
    · simp
    · intro k hk
      simp [hk]
    · intro m s hmem
      have := List.of_mem_filter hmem
      simpa using this

/-- Sample pending job record used as concrete store content. -/
def j0val : Job :=
  ⟨"a", "https://youtu.be/x", JobStatus.pending, none, "", "", 0, none, none, ""⟩

/-- C4 witness: on a volatile store holding only the id a, deleting the
absent id missing fails, and deleting a succeeds and removes it; the
durable delete of an absent id also goes through, per the amended
theorem. -/
theorem c4_amended_witness :
    (exceptOk (inMemDeleteJob
      (fun k => if k = "a" then some j0val else none) "missing") = false) ∧
    (∃ jobs', inMemDeleteJob
      (fun k => if k = "a" then some j0val else none) "a" = Except.ok jobs' ∧
      jobs' "a" = none ∧
      ∀ k, k ≠ "a" → jobs' k = (fun k => if k = "a" then some j0val else none) k) := by
  exact ⟨(c4_amended (fun k => if k = "a" then some j0val else none)
      redisEmpty "missing").1 (by simp),
    (c4_amended (fun k => if k = "a" then some j0val else none)
      redisEmpty "a").2.1 j0val (by simp)⟩

/-! ## Claims C5, C6, C9: the rate limiter -/

/-- Volatile limiter state (shared/ratelimit.go): the per-client counter
map inMemCount (a Go map, absent keys read as 0) and inMemTTL, the wall
time of the last wholesale reset, in seconds.  The zero value of a Go
time.Time lies decades before any call time, so the initial state uses
ttl = 0 with call times far above 60. -/
structure InMemRL where
  counts : String → Int
  ttl : Int

/-- RateLimiter.allowInMem (shared/ratelimit.go lines 58-71): reset the
whole map when more than 60 seconds passed since the last reset, then
increment the caller's counter and allow iff it is within the quota,
returning the remaining quota alongside. -/
def allowInMem (st : InMemRL) (now : Int) (ip : String) (rpm : Int) :
    (Bool × Int) × InMemRL :=
  let st1 := if 60 < now - st.ttl then { counts := fun _ => 0, ttl := now } else st
  let n := st1.counts ip + 1
  let st2 := { st1 with counts := fun k => if k = ip then n else st1.counts k }
  ((decide (n ≤ rpm), rpm - n), st2)

/-- Key of the per-client per-minute Redis counter, minuteKey
(shared/ratelimit.go lines 29-31); now is in seconds and Lean's Int
division matches Go's (both truncate toward zero, and call times are
positive). -/
def minuteKey (ip : String) (now : Int) : String :=
  "ratelimit:" ++ ip ++ ":" ++ toString (now / 60)

/-- RateLimiter.Allow (shared/ratelimit.go lines 34-56).  Parameters
hasRedis and redisErr fix whether a Redis client is configured and
whether its INCR errors or times out on this call.  redisCtr is the
Redis keyspace of counters (INCR of an absent key yields 1).  The
EXPIRE issued on a counter's first increment only garbage-collects
keys of past minutes and is not modelled; windows are separated by the
minute number inside the key.  The result carries the verdict pair and
the two post states. -/
def rlAllow (rpm : Int) (hasRedis redisErr : Bool) (redisCtr : String → Int)
    (inMem : InMemRL) (now : Int) (ip : String) :
    (Bool × Int) × (String → Int) × InMemRL :=
  if rpm ≤ 0 then ((true, rpm), redisCtr, inMem)
  else if hasRedis then
    if redisErr then
      let r := allowInMem inMem now ip rpm
      (r.1, redisCtr, r.2)
    else
      let key := minuteKey ip now
      let n := redisCtr key + 1
      ((decide (n ≤ rpm), rpm - n),
        fun k => if k = key then n else redisCtr k, inMem)
  else
    let r := allowInMem inMem now ip rpm
    (r.1, redisCtr, r.2)

/-- Count of requests by the client in its current window, this call
included, read off the post-call state of whichever path Allow took:
the Redis counter of the current minute key on a successful Redis
round trip, the in-memory counter otherwise. -/
def rlCurrentCount (hasRedis redisErr : Bool) (redisCtr : String → Int)
    (inMem : InMemRL) (now : Int) (ip : String) : Int :=
  if hasRedis && !redisErr then redisCtr (minuteKey ip now) else inMem.counts ip

/-- C5: with a zero or negative quota Allow always allows; with a
positive quota it allows exactly when the client's current-window count
including this call is within the quota, and reports quota minus that
count as the remaining quota. -/
theorem c5_allow_verdict (rpm : Int) (hasRedis redisErr : Bool)
    (redisCtr : String → Int) (inMem : InMemRL) (now : Int) (ip : String) :
    (rpm ≤ 0 → (rlAllow rpm hasRedis redisErr redisCtr inMem now ip).1 = (true, rpm)) ∧
    (0 < rpm →
      (rlAllow rpm hasRedis redisErr redisCtr inMem now ip).1 =
        (decide (rlCurrentCount hasRedis redisErr
            (rlAllow rpm hasRedis redisErr redisCtr inMem now ip).2.1
            (rlAllow rpm hasRedis redisErr redisCtr inMem now ip).2.2 now ip ≤ rpm),
         rpm - rlCurrentCount hasRedis redisErr
            (rlAllow rpm hasRedis redisErr redisCtr inMem now ip).2.1
            (rlAllow rpm hasRedis redisErr redisCtr inMem now ip).2.2 now ip)) := by
  constructor
  · intro hle
    simp [rlAllow, hle]
  · intro hpos
    have hns : ¬ rpm ≤ 0 := by omega
    cases hasRedis with
    | false =>
      simp [rlAllow, rlCurrentCount, allowInMem, hns]
    | true =>
      cases redisErr with
      | false => simp [rlAllow, rlCurrentCount, hns]
      | true => simp [rlAllow, rlCurrentCount, allowInMem, hns]

/-- C5 witness: the first request of client A against quota 2 through
the in-memory path is allowed with remaining quota 1, and the verdict
agrees with the theorem's count-based form; the disabled-limit case is
exercised at quota 0. -/
theorem c5_allow_verdict_witness :
    ((0 : Int) ≤ 0 → (rlAllow 0 false false (fun _ => 0) ⟨fun _ => 0, 0⟩ 1000 "A").1
        = (true, 0)) ∧
    ((0 : Int) < 2 → (rlAllow 2 false false (fun _ => 0) ⟨fun _ => 0, 0⟩ 1000 "A").1 =
      (decide (rlCurrentCount false false
          (rlAllow 2 false false (fun _ => 0) ⟨fun _ => 0, 0⟩ 1000 "A").2.1
          (rlAllow 2 false false (fun _ => 0) ⟨fun _ => 0, 0⟩ 1000 "A").2.2 1000 "A" ≤ 2),
       2 - rlCurrentCount false false
          (rlAllow 2 false false (fun _ => 0) ⟨fun _ => 0, 0⟩ 1000 "A").2.1
          (rlAllow 2 false false (fun _ => 0) ⟨fun _ => 0, 0⟩ 1000 "A").2.2 1000 "A")) :=
  ⟨fun _ => (c5_allow_verdict 0 false false (fun _ => 0) ⟨fun _ => 0, 0⟩ 1000 "A").1
      (by decide),
   fun _ => (c5_allow_verdict 2 false false (fun _ => 0) ⟨fun _ => 0, 0⟩ 1000 "A").2
      (by decide)⟩

/-- First Allow call of the C6 scenario: quota 2, client A, fresh
limiter (zero counters, zero-value reset time), call time 1000 s. -/
def c6r1 : (Bool × Int) × (String → Int) × InMemRL :=
  rlAllow 2 false false (fun _ => 0) ⟨fun _ => 0, 0⟩ 1000 "A"

/-- Second rapid Allow call of the C6 scenario, same second. -/
def c6r2 : (Bool × Int) × (String → Int) × InMemRL :=
  rlAllow 2 false false c6r1.2.1 c6r1.2.2 1000 "A"

/-- Third rapid Allow call of the C6 scenario, same second. -/
def c6r3 : (Bool × Int) × (String → Int) × InMemRL :=
  rlAllow 2 false false c6r2.2.1 c6r2.2.2 1000 "A"

/-- Fourth Allow call of the C6 scenario, 61 seconds later, after the
window rolled over. -/
def c6r4 : (Bool × Int) × (String → Int) × InMemRL :=
  rlAllow 2 false false c6r3.2.1 c6r3.2.2 1061 "A"

/-- Check of claim C6 as stated: first two calls allowed, third
rejected with remaining quota 0, fourth (after rollover) allowed. -/
def c6ClaimCheck : Bool :=
  c6r1.1.1 && c6r2.1.1 && !c6r3.1.1 && (c6r3.1.2 == 0) && c6r4.1.1

/-- C6 counterexample: the scenario refutes the claim because the third
call is rejected with remaining quota -1, not 0: Allow computes
remaining = quota - currentCount = 2 - 3. -/
theorem c6_cx : c6ClaimCheck = false := by decide

/-- C6, amended: with quota 2 per minute, three rapid Allow calls of
client A yield allowed with remaining 1, allowed with remaining 0, and
rejected with remaining -1; after the window rolls over a fourth call
is allowed with remaining 1. -/
theorem c6_amended :
    c6r1.1 = (true, 1) ∧ c6r2.1 = (true, 0) ∧ c6r3.1 = (false, -1) ∧
    c6r4.1 = (true, 1) := by
  refine ⟨?_, ?_, ?_, ?_⟩ <;> decide

/-- C9: with a positive quota, when the Redis increment errors or times
out, Allow returns exactly the verdict of the volatile in-memory path
on the same call, leaving the Redis counters untouched: a backend
error never by itself denies the request. -/
theorem c9_fallback (rpm : Int) (redisCtr : String → Int) (inMem : InMemRL)
    (now : Int) (ip : String) (hpos : 0 < rpm) :
    rlAllow rpm true true redisCtr inMem now ip =
      ((allowInMem inMem now ip rpm).1, redisCtr, (allowInMem inMem now ip rpm).2) := by
  have hns : ¬ rpm ≤ 0 := by omega
  simp [rlAllow, hns]

/-- C9 witness: a concrete degraded-backend call (quota 2, fresh
states) returns the in-memory verdict with Redis counters unchanged. -/
theorem c9_fallback_witness :
    rlAllow 2 true true (fun _ => 0) ⟨fun _ => 0, 0⟩ 1000 "A" =
      ((allowInMem ⟨fun _ => 0, 0⟩ 1000 "A" 2).1, fun _ => 0,
       (allowInMem ⟨fun _ => 0, 0⟩ 1000 "A" 2).2) :=
  c9_fallback 2 (fun _ => 0) ⟨fun _ => 0, 0⟩ 1000 "A" (by decide)

/-! ## Claim C7: volatile MessageBus publish semantics -/

/-- State of InMemoryQueue (api-gateway main, shared/queue.go section):
buf is the content of the buffered channel q.queue with capacity cap,
and closedQ records whether Close ran, which closes both q.stop and
q.queue. -/
structure QueueState where
  buf : List JobMessage
  cap : Nat
  closedQ : Bool
  deriving DecidableEq, Repr

/-- Possible outcomes of InMemoryQueue.Publish: success, the
queue-closed error, the queue-full error, or a run-time panic (a send
on a closed channel). -/
inductive PubOutcome where
  | ok
  | errClosed
  | errFull
  | panicked
  deriving DecidableEq, Repr

/-- InMemoryQueue.Publish (shared/queue.go section of
api-gateway/main.go, lines 297-307): a three-way select.  Per Go
semantics the send case can proceed when the buffer has room or when
q.queue is closed (in which case executing it panics); the receive on
q.stop can proceed exactly when the queue was closed; the default case
returns the queue-full error only when neither communication can
proceed.  When both communications can proceed, select chooses
pseudo-randomly; the Boolean pick resolves that choice (true = the
send case). -/
def publish (q : QueueState) (m : JobMessage) (pick : Bool) :
    PubOutcome × QueueState :=
  let sendCase : PubOutcome × QueueState :=
    if q.closedQ then (PubOutcome.panicked, q)
    else (PubOutcome.ok, { q with buf := q.buf ++ [m] })
  let sendReady := q.closedQ || decide (q.buf.length < q.cap)
  let stopReady := q.closedQ
  if sendReady && stopReady then
    if pick then sendCase else (PubOutcome.errClosed, q)
  else if sendReady then sendCase
  else if stopReady then (PubOutcome.errClosed, q)
  else (PubOutcome.errFull, q)

/-- InMemoryQueue.Close (lines 314-323): guarded by sync.Once, closes
q.stop and q.queue. -/
def closeQueue (q : QueueState) : QueueState := { q with closedQ := true }

/-- Fresh queue of capacity 2 with no consumer attached. -/
def cq0 : QueueState := ⟨[], 2, false⟩

/-- First publish into the fresh capacity-2 queue. -/
def cq1 : PubOutcome × QueueState := publish cq0 ⟨"j1", "u1"⟩ true

/-- Second publish, filling the buffer. -/
def cq2 : PubOutcome × QueueState := publish cq1.2 ⟨"j2", "u2"⟩ true

/-- Third publish against the saturated buffer. -/
def cq3 : PubOutcome × QueueState := publish cq2.2 ⟨"j3", "u3"⟩ true

/-- C7: on the saturated open queue the bufferSize+1-st publish fails
immediately with the queue-full error and leaves the queue unchanged;
but after Close, a publish may panic instead of failing with the
queue-closed error: both cases of the select are ready and the
pseudo-random choice of the send case executes a send on the closed
channel.  The claim's QueueClosed outcome occurs only when select
happens to pick the stop case. -/
theorem c7_publish_after_close :
    cq1.1 = PubOutcome.ok ∧ cq2.1 = PubOutcome.ok ∧
    cq3.1 = PubOutcome.errFull ∧ cq3.2 = cq2.2 ∧
    (publish (closeQueue cq0) ⟨"j3", "u3"⟩ true).1 = PubOutcome.panicked ∧
    (publish (closeQueue cq0) ⟨"j3", "u3"⟩ false).1 = PubOutcome.errClosed := by
  refine ⟨?_, ?_, ?_, ?_, ?_, ?_⟩ <;> decide

/-! ## Claim C10: configuration defaults and bounds -/

/-- Digit accumulator of the Atoi model. -/
def digitsToNatCore : List Char → Nat → Option Nat
  | [], acc => some acc
  | c :: rest, acc =>
    if c.isDigit then digitsToNatCore rest (acc * 10 + (c.toNat - '0'.toNat))
    else none

/-- Numeric value of a non-empty all-digit character list. -/
def digitsToNat (cs : List Char) : Option Nat :=
  match cs with
  | [] => none
  | _ => digitsToNatCore cs 0

/-- Model of Go's strconv.Atoi on a 64-bit platform: an optional sign
followed by at least one digit, rejecting anything else and values
outside the int64 range (Go reports ErrRange, which every caller in
LoadConfig treats like a syntax error). -/
def goAtoi (s : String) : Option Int :=
  let cs := s.toList
  let signDigits : Bool × List Char :=
    match cs with
    | [] => (false, [])
    | c :: rest =>
      if c = '-' then (true, rest)
      else if c = '+' then (false, rest)
      else (false, cs)
  match digitsToNat signDigits.2 with
  | none => none
  | some n =>
    let v : Int := if signDigits.1 then -(n : Int) else (n : Int)
    if v < -9223372036854775808 ∨ 9223372036854775807 < v then none else some v

/-- MaxWorkers computation of LoadConfig (shared/config.go lines 54-59):
Atoi of MAX_WORKERS, replaced by DefaultMaxWorkers = 3 on parse error
or a non-positive value.  On error Go leaves maxWorkers at 0, which the
same guard replaces. -/
def cfgMaxWorkers (s : String) : Int :=
  match goAtoi s with
  | some n => if n ≤ 0 then 3 else n
  | none => 3

/-- RateLimitRPM computation of LoadConfig (shared/config.go lines
69-75): DefaultRateLimitRPM = 300 unless RATE_LIMIT_RPM is set,
parses, and is strictly positive. -/
def cfgRateLimitRPM (s : String) : Int :=
  if s = "" then 300
  else
    match goAtoi s with
    | some n => if 0 < n then n else 300
    | none => 300

/-- RedisDB index computation of LoadConfig (lines 62-67): 0 unless
REDIS_DB is set, parses, and is non-negative. -/
def cfgRedisDBIndex (s : String) : Int :=
  if s = "" then 0
  else
    match goAtoi s with
    | some n => if 0 ≤ n then n else 0
    | none => 0

/-- QueueMaxLength computation of LoadConfig (lines 78-83). -/
def cfgQueueMaxLength (s : String) : Int :=
  if s = "" then 0
  else
    match goAtoi s with
    | some n => if 0 ≤ n then n else 0
    | none => 0

/-- MaxVideoDurationSeconds computation of LoadConfig (lines 86-91). -/
def cfgMaxVideoDuration (s : String) : Int :=
  if s = "" then 1200
  else
    match goAtoi s with
    | some n => if 0 < n then n else 1200
    | none => 1200

/-- Numeric fields of Config (shared/config.go).  The string and
string-list fields (ports, tokens, origins, hosts, paths) are computed
by independent code that never feeds the numeric fields and are left
out of the embedding. -/
structure GoConfig where
  maxWorkers : Int
  rateLimitRPM : Int
  redisDBIndex : Int
  queueMaxLength : Int
  maxVideoDurationSeconds : Int
  deriving DecidableEq, Repr

/-- LoadConfig (shared/config.go lines 53-131) restricted to its numeric
fields; env models os.Getenv, which returns the empty string for unset
variables. -/
def loadConfig (env : String → String) : GoConfig :=
  { maxWorkers := cfgMaxWorkers (env "MAX_WORKERS"),
    rateLimitRPM := cfgRateLimitRPM (env "RATE_LIMIT_RPM"),
    redisDBIndex := cfgRedisDBIndex (env "REDIS_DB"),
    queueMaxLength := cfgQueueMaxLength (env "QUEUE_MAX_LENGTH"),
    maxVideoDurationSeconds := cfgMaxVideoDuration (env "MAX_VIDEO_DURATION_SECONDS") }

/-- C10: whatever the environment, LoadConfig yields MaxWorkers at least
1 (3 when MAX_WORKERS is unset) and RateLimitRPM at least 1 (300 when
RATE_LIMIT_RPM is unset), so the zero-or-negative quota that would
disable rate limiting cannot be produced by environment
configuration. -/
theorem c10_config_bounds (env : String → String) :
    1 ≤ (loadConfig env).maxWorkers ∧ 1 ≤ (loadConfig env).rateLimitRPM ∧
    (env "MAX_WORKERS" = "" → (loadConfig env).maxWorkers = 3) ∧
    (env "RATE_LIMIT_RPM" = "" → (loadConfig env).rateLimitRPM = 300) := by
  refine ⟨?_, ?_, ?_, ?_⟩
  · show 1 ≤ cfgMaxWorkers (env "MAX_WORKERS")
    unfold cfgMaxWorkers
    rcases goAtoi (env "MAX_WORKERS") with _ | n
    · dsimp
      omega
    · dsimp
      split <;> omega
  · show 1 ≤ cfgRateLimitRPM (env "RATE_LIMIT_RPM")
    unfold cfgRateLimitRPM
    split
    · omega
    · rcases goAtoi (env "RATE_LIMIT_RPM") with _ | n
      · dsimp
        omega
      · dsimp
        split <;> omega
  · intro h
    show cfgMaxWorkers (env "MAX_WORKERS") = 3
    rw [h]
    decide
  · intro h
    show cfgRateLimitRPM (env "RATE_LIMIT_RPM") = 300
    rw [h]
    decide

/-- C10 witness: in the empty environment LoadConfig yields MaxWorkers 3
and RateLimitRPM 300, both at least 1. -/
theorem c10_config_bounds_witness :
    1 ≤ (loadConfig (fun _ => "")).maxWorkers ∧
    1 ≤ (loadConfig (fun _ => "")).rateLimitRPM ∧
    (loadConfig (fun _ => "")).maxWorkers = 3 ∧
    (loadConfig (fun _ => "")).rateLimitRPM = 300 :=
  ⟨(c10_config_bounds (fun _ => "")).1, (c10_config_bounds (fun _ => "")).2.1,
   (c10_config_bounds (fun _ => "")).2.2.1 rfl,
   (c10_config_bounds (fun _ => "")).2.2.2 rfl⟩

/-! ## Claim C8: defensive copy of the volatile store's Get

The claim is about aliasing, so this model keeps Go pointers explicit:
heap cells are numbered, the Job struct holds the addresses of its
Metadata and time.Time cells, and the volatile store's map holds the
address of each record's Job cell. -/

/-- Job struct with its pointer-typed fields (Metadata *Metadata,
StartedAt/CompletedAt *time.Time) kept as heap addresses. -/
structure PtrJob where
  id : String
  originalURL : String
  status : JobStatus
  metadataPtr : Option Nat
  downloadEndpoint : String
  error : String
  createdAt : Int
  startedAtPtr : Option Nat
  completedAtPtr : Option Nat
  filePath : String
  deriving DecidableEq, Repr

/-- Heap: cells holding Job structs, Metadata structs and time.Time
values, plus the next fresh address. -/
structure MemHeap where
  jobCells : Nat → Option PtrJob
  metaCells : Nat → Option Metadata
  timeCells : Nat → Option Int
  next : Nat

/-- The volatile store's map jobs : map[string]*Job (shared/db.go),
holding a Job-cell address per id. -/
structure MemDB where
  jobs : String → Option Nat

/-- InMemoryDB.GetJob (shared/db.go): look the pointer up, fail with
NotFound when absent; otherwise copiedJob := *job allocates a fresh
cell holding a shallow copy of the struct (its pointer fields keep
their addresses) and the copy's address is returned. -/
def getJob (db : MemDB) (h : MemHeap) (jobID : String) :
    Except String (Nat × MemHeap) :=
  match db.jobs jobID with
  | none => Except.error ("job with ID " ++ jobID ++ " not found")
  | some addr =>
    match h.jobCells addr with
    | none => Except.error "dangling job pointer"
    | some j =>
      Except.ok (h.next,
        { h with
          jobCells := fun a => if a = h.next then some j else h.jobCells a,
          next := h.next + 1 })

/-- Logical content a reader of a Job observes: the struct itself and
the dereferenced contents of its pointer fields. -/
def jobView (h : MemHeap) (j : PtrJob) :
    PtrJob × Option Metadata × Option Int × Option Int :=
  (j, j.metadataPtr.bind h.metaCells, j.startedAtPtr.bind h.timeCells,
   j.completedAtPtr.bind h.timeCells)

/-- Logical content of the record the store holds under an id. -/
def storedView (db : MemDB) (h : MemHeap) (jobID : String) :
    Option (PtrJob × Option Metadata × Option Int × Option Int) :=
  (db.jobs jobID).bind fun a => (h.jobCells a).map fun j => jobView h j

/-- A caller mutating fields of the Job struct held in cell a (writes
like job.Status = ... through the returned pointer). -/
def mutateJobCell (h : MemHeap) (a : Nat) (f : PtrJob → PtrJob) : MemHeap :=
  { h with
    jobCells := fun x => if x = a then (h.jobCells x).map f else h.jobCells x }

/-- A caller writing job.Metadata.Title through the Metadata pointer of
a Job it holds: mutates the Metadata cell at address a in place. -/
def setMetaTitle (h : MemHeap) (a : Nat) (t : String) : MemHeap :=
  { h with
    metaCells := fun x =>
      if x = a then (h.metaCells x).map (fun m => { m with title := t })
      else h.metaCells x }

/-- Concrete Metadata cell content for the C8 scenario. -/
def m0 : Metadata := ⟨"original title", "uploader", 0, "", "m4a", 128⟩

/-- Concrete completed job whose Metadata pointer targets cell 0. -/
def pj0 : PtrJob :=
  ⟨"j", "https://youtu.be/x", JobStatus.completed, some 0, "", "", 0, none, none, ""⟩

/-- Store holding the single id j at Job-cell address 0. -/
def db0 : MemDB := ⟨fun i => if i = "j" then some 0 else none⟩

/-- Heap backing db0: Job cell 0 holds pj0, Metadata cell 0 holds m0,
and address 1 is the next fresh cell. -/
def h0 : MemHeap :=
  ⟨fun a => if a = 0 then some pj0 else none,
   fun a => if a = 0 then some m0 else none,
   fun _ => none, 1⟩

/-- Result of GetJob db0 h0 j: the address of the fresh shallow copy
and the heap after the allocation. -/
def getRes : Nat × MemHeap :=
  match getJob db0 h0 "j" with
  | Except.ok p => p
  | Except.error _ => (0, h0)

/-- Metadata address the caller reads out of the returned copy. -/
def retMetaAddr : Nat :=
  match (getRes.2.jobCells getRes.1).bind (fun j => j.metadataPtr) with
  | some a => a
  | none => 0

/-- Heap after the caller writes a new title through the returned
copy's Metadata pointer, without calling Update. -/
def c8MutatedHeap : MemHeap := setMetaTitle getRes.2 retMetaAddr "changed"

/-- Check of claim C8 at the scenario: the store's record should be
unchanged by the caller's mutation of the returned Job's optional
field. -/
def c8ClaimCheck : Bool :=
  decide (storedView db0 c8MutatedHeap "j" = storedView db0 h0 "j")

/-- C8 counterexample: GetJob's copiedJob := *job is a shallow copy
sharing the Metadata pointer, so writing the title through the
returned Job's Metadata field changes the logical content of the
record the store still holds, without any Update call. -/
theorem c8_cx : c8ClaimCheck = false := by decide

/-- C8, amended: GetJob returns a shallow defensive copy in a fresh
cell: any mutation of the returned Job struct's own fields leaves
every record held by the store unchanged, but mutations reached
through its pointer-typed optional fields (Metadata, StartedAt,
CompletedAt) alter the stored record's content.  The theorem is the
positive half; the counterexample establishes the pointer-field
half. -/
theorem c8_amended (db : MemDB) (h : MemHeap) (jobID : String) (a : Nat)
    (h' : MemHeap) (wf : ∀ i x, db.jobs i = some x → x < h.next)
    (hg : getJob db h jobID = Except.ok (a, h'))
    (f : PtrJob → PtrJob) (anyID : String) :
    storedView db (mutateJobCell h' a f) anyID = storedView db h anyID := by
  rcases hdb : db.jobs jobID with _ | addr
  · simp [getJob, hdb] at hg
  · rcases hcell : h.jobCells addr with _ | j
    · simp [getJob, hdb, hcell] at hg
    · simp only [getJob, hdb, hcell, Except.ok.injEq, Prod.mk.injEq] at hg
      obtain ⟨ha, hh⟩ := hg
      subst ha
      subst hh
      rcases hdb2 : db.jobs anyID with _ | x
      · simp [storedView, hdb2]
      · have hx : x < h.next := wf anyID x hdb2
        have hne : x ≠ h.next := Nat.ne_of_lt hx
        simp [storedView, hdb2, mutateJobCell, jobView, hne]

/-- C8 witness: on the concrete store db0, mutating the status field of
the copy GetJob returned leaves the stored record's content intact. -/
theorem c8_amended_witness :
    (∀ i x, db0.jobs i = some x → x < h0.next) ∧
    storedView db0
      (mutateJobCell getRes.2 getRes.1 (fun j => { j with status := JobStatus.failed }))
      "j" = storedView db0 h0 "j" := by
  have wf : ∀ i x, db0.jobs i = some x → x < h0.next := by
    intro i x hx
    by_cases hij : i = "j"
    · simp [db0, hij] at hx
      simp [h0, hx]
    · simp [db0, hij] at hx
  exact ⟨wf, c8_amended db0 h0 "j" getRes.1 getRes.2 wf rfl _ "j"⟩

end YtApi
